import Mathlib

/-!
Verification of the Fluopanel window-and-popover lifecycle engine.

The definitions below are shallow embeddings of the TypeScript sources:
  * `packages/core/src/popup-controller.ts` (window context, inline windows)
  * `packages/core/src/popover-controller.ts` (popover context and controller)
  * `packages/vue/src/composables/usePopover.ts` (client toggle)
  * `packages/vue/src/composables/windowRegistry.ts` (pending-window registry)
  * `packages/vue/src/composables/useAutoSize.ts` (content auto-sizing)
and, where the deciding code lives on the native (Rust) side only, models
built from the specification text (each such definition says so in its
doc comment).

URL query strings are modelled as association lists of key/value pairs
(the behaviour of `URLSearchParams.get`, which returns the first value for
a key or null).  JavaScript string truthiness (empty string is falsy) is
made explicit where the source relies on it.
-/

namespace Fluopanel

/-- A URL query: ordered key/value pairs, as seen by `URLSearchParams`. -/
abbrev Query : Type := List (String × String)

/-- Embedding of `URLSearchParams.get`: first value bound to the key, else null. -/
def getParam (q : Query) (k : String) : Option String :=
  (q.find? (fun p => p.1 == k)).map (fun p => p.2)

/-- JavaScript truthiness for a nullable string: null and the empty string are falsy. -/
def truthyParam : Option String → Option String
  | some s => if s = "" then none else some s
  | none => none

/-! ## Window context (`popup-controller.ts`, `getWindowContext`) -/

/-- Window role as computed by `getWindowContext`. -/
inductive WindowMode
  | coordinator
  | window
deriving DecidableEq, Repr

/-- The context record returned by `getWindowContext` (types.ts `WindowContext`). -/
structure WindowContext where
  id : String
  label : String
  mode : WindowMode
deriving DecidableEq, Repr

/-- Embedding of `getWindowContext` (popup-controller.ts): reads the `window`
and `float` query parameters (with JS truthiness, so an empty value is
ignored); a truthy `window` gives an inline-window child, else a truthy
`float` gives a float child, else the coordinator context. -/
def getWindowContext (q : Query) : WindowContext :=
  match truthyParam (getParam q "window") with
  | some wid => { id := wid, label := "inline-window-" ++ wid, mode := .window }
  | none =>
    match truthyParam (getParam q "float") with
    | some fid => { id := fid, label := "float-" ++ fid, mode := .window }
    | none => { id := "coordinator", label := "main", mode := .coordinator }

/-! ## Popover context (`popover-controller.ts`, `getPopoverContext`) -/

/-- The context record declared in types.ts (`PopoverContext`): id, popover
flag, and the maximum height parsed from the URL (`number | null`,
modelled as `Option Int`; a field left out by the implementation reads as
undefined, i.e. `none`). -/
structure PopoverContext where
  id : Option String
  isPopover : Bool
  maxHeight : Option Int
deriving DecidableEq, Repr

/-- Embedding of `getPopoverContext` (popover-controller.ts): reads only the
`popover` query parameter; the returned object literal carries no
`maxHeight` field at all, so that field is undefined (`none`) on every
input — the `max_height` query parameter is never consulted. -/
def getPopoverContext (q : Query) : PopoverContext :=
  let popoverId := getParam q "popover"
  { id := popoverId, isPopover := popoverId.isSome, maxHeight := none }

/-! ## Exclusive groups (`popover-controller.ts`, `createPopoverController.open`) -/

/-- The `exclusive` argument of `createPopoverController.open`:
`boolean | string | absentined` in the source. -/
inductive Exclusive
  | absent
  | bool (b : Bool)
  | str (s : String)
deriving DecidableEq, Repr

/-- JavaScript truthiness of the `exclusive` argument:
undefined and false and the empty string are falsy. -/
def exclusiveTruthy : Exclusive → Bool
  | .absent => false
  | .bool b => b
  | .str s => s != ""

/-- Embedding of JavaScript `String.prototype.startsWith`: the receiver's
character sequence begins with the argument's character sequence. -/
def jsStartsWith (s pfx : String) : Bool := pfx.data.isPrefixOf s.data

/-- Embedding of the popover-selection logic in `createPopoverController.open`:
under a truthy `exclusive`, either every other open popover (when
`exclusive === true`) or the open popovers whose id starts with
`exclusive + "-"` (other than the opening id) are selected for closure;
otherwise nothing is closed. -/
def popoversToClose (exclusive : Exclusive) (openPopovers : List String)
    (openingId : String) : List String :=
  if exclusiveTruthy exclusive then
    match exclusive with
    | .bool _ => openPopovers.filter (fun i => i != openingId)
    | .str s =>
      let pfx := s ++ "-"
      openPopovers.filter (fun i => i != openingId && jsStartsWith i pfx)
    | .absent => []
  else []

end Fluopanel

namespace Fluopanel

/-- C1: the set of popovers closed by `createPopoverController.open` with an
`exclusive` argument is exactly: all currently open popovers other than the
opening id when `exclusive` is `true`; the open popovers other than the
opening id whose id starts with `P ++ "-"` when `exclusive` is a non-empty
string `P`; and empty when `exclusive` is absent or `false`. -/
theorem popoversToClose_characterization
    (ex : Exclusive) (S : List String) (openingId x : String) :
    (ex = .bool true →
      (x ∈ popoversToClose ex S openingId ↔ x ∈ S ∧ x ≠ openingId)) ∧
    (∀ P : String, P ≠ "" → ex = .str P →
      (x ∈ popoversToClose ex S openingId ↔
        x ∈ S ∧ x ≠ openingId ∧ jsStartsWith x (P ++ "-") = true)) ∧
    ((ex = .absent ∨ ex = .bool false) → popoversToClose ex S openingId = []) := by
  refine ⟨?_, ?_, ?_⟩
  · rintro rfl
    simp [popoversToClose, exclusiveTruthy, List.mem_filter, bne_iff_ne]
  · rintro P hP rfl
    simp only [popoversToClose, exclusiveTruthy]
    rw [if_pos (by simpa using hP)]
    simp [List.mem_filter, bne_iff_ne, and_assoc]
  · rintro (rfl | rfl) <;> simp [popoversToClose, exclusiveTruthy]

/-- Witness for C1: with `exclusive = "github"`, opening `github-prs` while
`github-issues` and `clock` are open selects exactly `github-issues`. -/
theorem popoversToClose_characterization_witness :
    "github-issues" ∈ popoversToClose (.str "github")
      ["github-issues", "clock"] "github-prs" ∧
    "clock" ∉ popoversToClose (.str "github")
      ["github-issues", "clock"] "github-prs" := by
  constructor
  · exact ((popoversToClose_characterization (.str "github")
      ["github-issues", "clock"] "github-prs" "github-issues").2.1 "github"
      (by decide) rfl).2 (by decide)
  · intro hmem
    have h := ((popoversToClose_characterization (.str "github")
      ["github-issues", "clock"] "github-prs" "clock").2.1 "github"
      (by decide) rfl).1 hmem
    exact absurd h.2.2 (by decide)

end Fluopanel

namespace Fluopanel

/-- C2 (code bug): the `PopoverContext` type requires a `maxHeight` field
documented as coming from the URL parameter, but `getPopoverContext` never
reads `max_height`: on a popover load URL carrying `popover=settings` and
`max_height=300` the returned context's `maxHeight` is undefined (`none`),
not `300`. -/
theorem getPopoverContext_maxHeight_never_parsed :
    (getPopoverContext [("popover", "settings"), ("max_height", "300")]).maxHeight
        = none ∧
    (getPopoverContext [("popover", "settings"), ("max_height", "300")]).maxHeight
        ≠ some 300 ∧
    getPopoverContext [("popover", "settings"), ("max_height", "300")]
        = { id := some "settings", isPopover := true, maxHeight := none } := by
  refine ⟨rfl, by decide, rfl⟩

/-- C3 (counterexample): the claim "mode is 'coordinator' iff the query
contains neither a `window` nor a `popover` parameter" is false: on the
query `popover=abc` (no `window`), `getWindowContext` returns the
coordinator context even though a `popover` parameter is present, because
the source checks `window` and `float`, never `popover`. -/
theorem getWindowContext_popover_ignored :
    ¬ ((getWindowContext [("popover", "abc")]).mode = WindowMode.coordinator ↔
        (getParam [("popover", "abc")] "window" = none ∧
         getParam [("popover", "abc")] "popover" = none)) := by
  intro h
  have hmode : (getWindowContext [("popover", "abc")]).mode
      = WindowMode.coordinator := by decide
  have := h.mp hmode
  exact absurd this.2 (by decide)

/-- C3 (amended): `getWindowContext` returns mode 'coordinator' iff the query
contains neither a truthy (non-empty) `window` parameter nor a truthy
`float` parameter; a truthy `window=<id>` yields the inline-window child
context for `<id>`, and otherwise a truthy `float=<id>` yields the float
child context for `<id>`.  The `popover` parameter plays no role. -/
theorem getWindowContext_role_detection (q : Query) :
    ((getWindowContext q).mode = WindowMode.coordinator ↔
      truthyParam (getParam q "window") = none ∧
      truthyParam (getParam q "float") = none) ∧
    (∀ wid, truthyParam (getParam q "window") = some wid →
      getWindowContext q
        = { id := wid, label := "inline-window-" ++ wid, mode := .window }) ∧
    (∀ fid, truthyParam (getParam q "window") = none →
      truthyParam (getParam q "float") = some fid →
      getWindowContext q
        = { id := fid, label := "float-" ++ fid, mode := .window }) ∧
    (getWindowContext (q ++ [("popover", "abc")]) = getWindowContext q) := by
  refine ⟨?_, ?_, ?_, ?_⟩
  · unfold getWindowContext
    rcases hw : truthyParam (getParam q "window") with _ | wid
    · rcases hf : truthyParam (getParam q "float") with _ | fid
      · simp
      · simp
    · simp
  · intro wid hw
    unfold getWindowContext
    rw [hw]
  · intro fid hw hf
    unfold getWindowContext
    rw [hw, hf]
  · have hwin : getParam (q ++ [("popover", "abc")]) "window" = getParam q "window" := by
      unfold getParam
      rw [List.find?_append]
      rcases h : q.find? (fun p => p.1 == "window") with _ | p
      · simp [h, List.find?]
      · simp [h]
    have hfl : getParam (q ++ [("popover", "abc")]) "float" = getParam q "float" := by
      unfold getParam
      rw [List.find?_append]
      rcases h : q.find? (fun p => p.1 == "float") with _ | p
      · simp [h, List.find?]
      · simp [h]
    unfold getWindowContext
    rw [hwin, hfl]

/-- Witness for the amended C3: a query carrying only `window=bar` yields the
inline-window child context, and appending `popover=abc` changes nothing. -/
theorem getWindowContext_role_detection_witness :
    getWindowContext [("window", "bar")]
      = { id := "bar", label := "inline-window-bar", mode := .window } ∧
    getWindowContext [("window", "bar"), ("popover", "abc")]
      = getWindowContext [("window", "bar")] := by
  constructor
  · exact (getWindowContext_role_detection [("window", "bar")]).2.1 "bar" (by decide)
  · exact (getWindowContext_role_detection [("window", "bar")]).2.2.2

end Fluopanel

namespace Fluopanel

/-! ## Inline window creation (`popup-controller.ts`, `createInlineWindow`) -/

/-- The optional window-config flags (`types.ts` `WindowConfig`); every field
may be omitted by the caller. -/
structure WindowConfigOpts where
  transparent : Option Bool
  alwaysOnTop : Option Bool
  decorations : Option Bool
  resizable : Option Bool
  skipTaskbar : Option Bool
deriving DecidableEq, Repr

/-- The caller-facing options of `createInlineWindow`
(`types.ts` `InlineWindowOptions`, position omitted: it is passed through
verbatim and plays no role in the claims below). -/
structure InlineWindowOptions where
  id : String
  url : Option String
  window : Option WindowConfigOpts
deriving DecidableEq, Repr

/-- The arguments `createInlineWindow` sends over the `create_inline_window`
channel. -/
structure CreateInlineWindowCmd where
  windowId : String
  url : String
  transparent : Bool
  alwaysOnTop : Bool
  decorations : Bool
  resizable : Bool
  skipTaskbar : Bool
deriving DecidableEq, Repr

/-- Embedding of `createInlineWindow` (popup-controller.ts): the URL defaults
to `<origin><pathname>?window=<id>` when not supplied, and each omitted
window-config flag is defaulted with `??` (transparent/alwaysOnTop/
skipTaskbar true, decorations/resizable false). -/
def createInlineWindowCmd (origin pathname : String)
    (opts : InlineWindowOptions) : CreateInlineWindowCmd :=
  { windowId := opts.id
  , url := opts.url.getD (origin ++ pathname ++ "?window=" ++ opts.id)
  , transparent := ((opts.window.bind (fun w => w.transparent)).getD true)
  , alwaysOnTop := ((opts.window.bind (fun w => w.alwaysOnTop)).getD true)
  , decorations := ((opts.window.bind (fun w => w.decorations)).getD false)
  , resizable := ((opts.window.bind (fun w => w.resizable)).getD false)
  , skipTaskbar := ((opts.window.bind (fun w => w.skipTaskbar)).getD true) }

/-- C7: when no `url` option is given, `createInlineWindow` sends
`<coordinator-origin><coordinator-path>?window=<id>`; an explicit url is
passed unchanged; and every omitted window-config flag is sent with its
documented default — transparent true, always-on-top true, decorations
false, resizable false, skip-taskbar true. -/
theorem createInlineWindow_url_and_defaults
    (origin pathname : String) (opts : InlineWindowOptions) :
    (opts.url = none →
      (createInlineWindowCmd origin pathname opts).url
        = origin ++ pathname ++ "?window=" ++ opts.id) ∧
    (∀ u, opts.url = some u →
      (createInlineWindowCmd origin pathname opts).url = u) ∧
    (opts.window.bind (fun w => w.transparent) = none →
      (createInlineWindowCmd origin pathname opts).transparent = true) ∧
    (opts.window.bind (fun w => w.alwaysOnTop) = none →
      (createInlineWindowCmd origin pathname opts).alwaysOnTop = true) ∧
    (opts.window.bind (fun w => w.decorations) = none →
      (createInlineWindowCmd origin pathname opts).decorations = false) ∧
    (opts.window.bind (fun w => w.resizable) = none →
      (createInlineWindowCmd origin pathname opts).resizable = false) ∧
    (opts.window.bind (fun w => w.skipTaskbar) = none →
      (createInlineWindowCmd origin pathname opts).skipTaskbar = true) := by
  refine ⟨fun h => ?_, fun u h => ?_, fun h => ?_, fun h => ?_,
    fun h => ?_, fun h => ?_, fun h => ?_⟩ <;>
    simp [createInlineWindowCmd, h]

/-- Witness for C7: creating window `bar` with no url and no config from a
coordinator at `http://localhost:1420/` sends the default url and flags. -/
theorem createInlineWindow_url_and_defaults_witness :
    (createInlineWindowCmd "http://localhost:1420" "/"
        { id := "bar", url := none, window := none }).url
      = "http://localhost:1420/?window=bar" ∧
    (createInlineWindowCmd "http://localhost:1420" "/"
        { id := "bar", url := none, window := none }).transparent = true ∧
    (createInlineWindowCmd "http://localhost:1420" "/"
        { id := "bar", url := none, window := none }).resizable = false := by
  refine ⟨?_, ?_, ?_⟩
  · have h := (createInlineWindow_url_and_defaults "http://localhost:1420" "/"
      { id := "bar", url := none, window := none }).1 rfl
    simpa using h
  · exact (createInlineWindow_url_and_defaults "http://localhost:1420" "/"
      { id := "bar", url := none, window := none }).2.2.1 rfl
  · exact (createInlineWindow_url_and_defaults "http://localhost:1420" "/"
      { id := "bar", url := none, window := none }).2.2.2.2.2.1 rfl

end Fluopanel

namespace Fluopanel

/-! ## Native popover toggle (Rust side, modelled from the spec) and the
`usePopover.toggle` client (usePopover.ts) -/

/-- The reply of the native `open_popover` command, restricted to the field
the toggle logic consumes (`PopoverInfo.closed`). -/
structure PopoverReply where
  closed : Bool
deriving DecidableEq, Repr

/-- Modelled from the spec: the native `open_popover` command (Rust side,
not under `src/`).  Per §4.5, "A re-open of the same id while the panel is
visible is a toggle: the controller closes the existing panel and returns
`{closed: true}` without creating a new one"; otherwise a fresh panel is
created and the reply carries `closed = false`.  State: list of open
popover ids. -/
def nativeOpenPopover (s : List String) (id : String) :
    List String × PopoverReply :=
  if id ∈ s then (s.erase id, { closed := true })
  else (s ++ [id], { closed := false })

/-- Modelled from the spec: the native `close_popover` command (Rust side,
not under `src/`): destroys the panel for the id; idempotent (§4.5). -/
def nativeClosePopover (s : List String) (id : String) : List String :=
  s.erase id

/-- Embedding of `createPopoverController.open` acting on the native open-set:
the selected exclusive-group members are closed one by one, then the
native `open_popover` toggle runs. -/
def controllerOpenNative (ex : Exclusive) (s : List String) (id : String) :
    List String × PopoverReply :=
  let s1 := (popoversToClose ex s id).foldl nativeClosePopover s
  nativeOpenPopover s1 id

/-- Embedding of the client-side state update in `usePopover.toggle`:
`openPopoverId` becomes null when the reply says closed, else the trigger
id. -/
def toggleNewOpenId (r : PopoverReply) (triggerId : String) : Option String :=
  if r.closed then none else some triggerId

/-- Every popover selected for closure differs from the opening id. -/
theorem popoversToClose_ne_openingId
    {ex : Exclusive} {S : List String} {openingId x : String}
    (h : x ∈ popoversToClose ex S openingId) : x ≠ openingId := by
  cases ex with
  | absent => simp [popoversToClose, exclusiveTruthy] at h
  | bool b =>
    cases b with
    | false => simp [popoversToClose, exclusiveTruthy] at h
    | true =>
      have h' : x ∈ S.filter (fun i => i != openingId) := h
      exact bne_iff_ne.mp (List.mem_filter.mp h').2
  | str s =>
    by_cases hs : s = ""
    · subst hs; simp [popoversToClose, exclusiveTruthy] at h
    · have h' : x ∈ S.filter
          (fun i => i != openingId && jsStartsWith i (s ++ "-")) := by
        unfold popoversToClose at h
        rw [if_pos (by simpa [exclusiveTruthy] using hs)] at h
        exact h
      have hb := (List.mem_filter.mp h').2
      exact bne_iff_ne.mp (Bool.and_elim_left hb)

/-- Folding native closes over ids different from `a` preserves the number of
occurrences of `a` in the open set. -/
theorem count_foldl_nativeClose (a : String) :
    ∀ (ds l : List String), (∀ x ∈ ds, x ≠ a) →
      (ds.foldl nativeClosePopover l).count a = l.count a := by
  intro ds
  induction ds with
  | nil => intro l _; rfl
  | cons d ds ih =>
    intro l h
    have hd : d ≠ a := h d (by simp)
    have hrest : ∀ x ∈ ds, x ≠ a := fun x hx => h x (by simp [hx])
    calc ((d :: ds).foldl nativeClosePopover l).count a
        = (ds.foldl nativeClosePopover (nativeClosePopover l d)).count a := rfl
      _ = (nativeClosePopover l d).count a := by rw [ih _ hrest]
      _ = l.count a := List.count_erase_of_ne (fun hc => hd hc.symm) l

/-- Folding native closes only shrinks the open set. -/
theorem foldl_nativeClose_subset :
    ∀ (ds l : List String), (ds.foldl nativeClosePopover l) ⊆ l := by
  intro ds
  induction ds with
  | nil => intro l x hx; exact hx
  | cons d ds ih =>
    intro l x hx
    exact List.erase_subset _ _ (ih (nativeClosePopover l d) hx)

/-- C4: a double `open(id, X)` with the panel still visible at the second
call is a toggle back to Absent.  Starting from any native open-set not
containing `id`: the first open replies `closed = false` and the panel
exists; the second identical open replies `closed = true`, destroys the
panel (`id` no longer open), creates no new panel (the open-set only
shrinks); and the client toggle sets its open-popover id to null exactly
when a reply's `closed` field is true.  (Native toggle semantics modelled
from the spec; selection and client update embedded from the source.) -/
theorem usePopover_double_toggle
    (ex : Exclusive) (s : List String) (id : String) (hid : id ∉ s) :
    ((controllerOpenNative ex s id).2.closed = false) ∧
    (id ∈ (controllerOpenNative ex s id).1) ∧
    ((controllerOpenNative ex (controllerOpenNative ex s id).1 id).2.closed
        = true) ∧
    (id ∉ (controllerOpenNative ex (controllerOpenNative ex s id).1 id).1) ∧
    ((controllerOpenNative ex (controllerOpenNative ex s id).1 id).1
        ⊆ (controllerOpenNative ex s id).1) ∧
    (toggleNewOpenId
        (controllerOpenNative ex (controllerOpenNative ex s id).1 id).2 id
        = none) ∧
    (∀ (r : PopoverReply) (t : String),
        toggleNewOpenId r t = none ↔ r.closed = true) := by
  have hcount0 : s.count id = 0 := List.count_eq_zero.mpr hid
  -- first open
  have hne1 : ∀ x ∈ popoversToClose ex s id, x ≠ id :=
    fun x hx => popoversToClose_ne_openingId hx
  have hs1count : ((popoversToClose ex s id).foldl nativeClosePopover s).count id
      = 0 := by rw [count_foldl_nativeClose id _ s hne1]; exact hcount0
  have hs1mem : id ∉ (popoversToClose ex s id).foldl nativeClosePopover s :=
    List.count_eq_zero.mp hs1count
  have hfirst : controllerOpenNative ex s id
      = (((popoversToClose ex s id).foldl nativeClosePopover s) ++ [id],
          { closed := false }) := by
    unfold controllerOpenNative nativeOpenPopover
    simp [hs1mem]
  -- the open set after the first call contains exactly one copy of id
  set t := ((popoversToClose ex s id).foldl nativeClosePopover s) ++ [id]
    with ht
  have htcount : t.count id = 1 := by
    rw [ht, List.count_append]
    simp [hs1count]
  have htmem : id ∈ t := by rw [ht]; simp
  -- second open
  have hne2 : ∀ x ∈ popoversToClose ex t id, x ≠ id :=
    fun x hx => popoversToClose_ne_openingId hx
  have ht2count : ((popoversToClose ex t id).foldl nativeClosePopover t).count id
      = 1 := by rw [count_foldl_nativeClose id _ t hne2]; exact htcount
  have ht2mem : id ∈ (popoversToClose ex t id).foldl nativeClosePopover t := by
    have := ht2count
    exact List.count_pos_iff.mp (by omega)
  have hsecond : controllerOpenNative ex t id
      = (((popoversToClose ex t id).foldl nativeClosePopover t).erase id,
          { closed := true }) := by
    unfold controllerOpenNative nativeOpenPopover
    simp [ht2mem]
  refine ⟨by rw [hfirst], by rw [hfirst]; exact htmem, ?_, ?_, ?_, ?_, ?_⟩
  · rw [hfirst]
    rw [show (t, ({ closed := false } : PopoverReply)).1 = t from rfl] at *
    rw [hsecond]
  · rw [hfirst]
    show id ∉ (controllerOpenNative ex t id).1
    rw [hsecond]
    have : (((popoversToClose ex t id).foldl nativeClosePopover t).erase id).count id
        = 0 := by
      rw [List.count_erase_self, ht2count]
    exact List.count_eq_zero.mp this
  · rw [hfirst]
    show (controllerOpenNative ex t id).1 ⊆ t
    rw [hsecond]
    intro x hx
    exact foldl_nativeClose_subset _ t (List.erase_subset _ _ hx)
  · rw [hfirst]
    show toggleNewOpenId (controllerOpenNative ex t id).2 id = none
    rw [hsecond]
    rfl
  · intro r tr
    cases r with
    | mk closed => cases closed <;> simp [toggleNewOpenId]

/-- Witness for C4: concretely, opening `github-prs` twice from the state
where only `clock` is open (exclusive absent) toggles it back closed and
the client records no open popover. -/
theorem usePopover_double_toggle_witness :
    ((controllerOpenNative .absent ["clock"] "github-prs").2.closed = false) ∧
    ((controllerOpenNative .absent
        (controllerOpenNative .absent ["clock"] "github-prs").1
        "github-prs").2.closed = true) ∧
    (toggleNewOpenId
        (controllerOpenNative .absent
          (controllerOpenNative .absent ["clock"] "github-prs").1
          "github-prs").2 "github-prs" = none) := by
  have h := usePopover_double_toggle .absent ["clock"] "github-prs" (by decide)
  exact ⟨h.1, h.2.2.1, h.2.2.2.2.2.1⟩

end Fluopanel

namespace Fluopanel

/-! ## The effect trace of `createPopoverController.open`
(popover-controller.ts, lines 121-154) -/

/-- Primitive effects performed by the controller's `open`, in program
order: callback-table deletion, issuing a `close_popover` command, that
command completing (the `await` returning), registering the onClose
callback, and issuing the `open_popover` command. -/
inductive OpenEvent
  | cbDeleted (id : String)
  | closeIssued (id : String)
  | closeCompleted (id : String)
  | cbSet (id : String)
  | openIssued (id : String)
deriving DecidableEq, Repr

/-- One iteration of the closure loop in `open`:
`closeCallbacks.delete(id)` then `await closePopover(id)`; the await
returning before the next iteration is the `closeCompleted` event. -/
def closureBlock (id : String) : List OpenEvent :=
  [.cbDeleted id, .closeIssued id, .closeCompleted id]

/-- Embedding of the sequence of effects of `createPopoverController.open`
after `get_open_popovers` returned `S`: the closure loop over the selected
members (sequential awaits), then the optional callback registration, then
the `open_popover` command. -/
def controllerOpenTrace (ex : Exclusive) (S : List String)
    (openingId : String) (hasOnClose : Bool) : List OpenEvent :=
  (popoversToClose ex S openingId).flatMap closureBlock
    ++ (if hasOnClose then [.cbSet openingId] else [])
    ++ [.openIssued openingId]

/-- Effect of one event on the multiset of in-flight (issued, not yet
completed) close commands. -/
def closeStep (st : List String) (e : OpenEvent) : List String :=
  match e with
  | .closeIssued i => st ++ [i]
  | .closeCompleted i => st.erase i
  | _ => st

/-- The close commands still in flight after a prefix of the trace. -/
def closesOutstanding (tr : List OpenEvent) : List String :=
  tr.foldl closeStep []

/-- The ids whose close command is issued somewhere in a trace, in order. -/
def closesIssuedIn (tr : List OpenEvent) : List String :=
  tr.filterMap (fun e => match e with | .closeIssued i => some i | _ => none)

/-- The ids whose close command completes somewhere in a trace, in order. -/
def closesCompletedIn (tr : List OpenEvent) : List String :=
  tr.filterMap (fun e => match e with | .closeCompleted i => some i | _ => none)

theorem closesIssuedIn_append (a b : List OpenEvent) :
    closesIssuedIn (a ++ b) = closesIssuedIn a ++ closesIssuedIn b := by
  simp [closesIssuedIn, List.filterMap_append]

theorem closesCompletedIn_append (a b : List OpenEvent) :
    closesCompletedIn (a ++ b) = closesCompletedIn a ++ closesCompletedIn b := by
  simp [closesCompletedIn, List.filterMap_append]

theorem closesIssuedIn_flatMap (l : List String) :
    closesIssuedIn (l.flatMap closureBlock) = l := by
  induction l with
  | nil => rfl
  | cons d l ih =>
    rw [List.flatMap_cons, closesIssuedIn_append, ih]
    rfl

theorem closesCompletedIn_flatMap (l : List String) :
    closesCompletedIn (l.flatMap closureBlock) = l := by
  induction l with
  | nil => rfl
  | cons d l ih =>
    rw [List.flatMap_cons, closesCompletedIn_append, ih]
    rfl

theorem closesOutstanding_flatMap_append (l : List String) (tl : List OpenEvent) :
    closesOutstanding (l.flatMap closureBlock ++ tl) = closesOutstanding tl := by
  induction l with
  | nil => rfl
  | cons d l ih =>
    show List.foldl closeStep [] (closureBlock d ++ (l.flatMap closureBlock ++ tl))
        = _
    rw [List.foldl_append]
    have hblock : List.foldl closeStep [] (closureBlock d) = [] := by
      simp [closureBlock, closeStep, List.erase_cons_head]
    rw [hblock]
    exact ih

theorem foldl_closeStep_neutral (tr : List OpenEvent)
    (h : ∀ i, OpenEvent.closeIssued i ∉ tr ∧ OpenEvent.closeCompleted i ∉ tr)
    (st : List String) : tr.foldl closeStep st = st := by
  induction tr generalizing st with
  | nil => rfl
  | cons e tr ih =>
    have he : closeStep st e = st := by
      cases e with
      | closeIssued i => exact absurd (by simp) (fun hx => (h i).1 hx)
      | closeCompleted i => exact absurd (by simp) (fun hx => (h i).2 hx)
      | cbDeleted i => rfl
      | cbSet i => rfl
      | openIssued i => rfl
    rw [List.foldl_cons, he]
    exact ih (fun i => ⟨fun hx => (h i).1 (by simp [hx]),
      fun hx => (h i).2 (by simp [hx])⟩) st

end Fluopanel

namespace Fluopanel

theorem closeCompleted_mem_flatMap {l : List String} {i : String} (h : i ∈ l) :
    OpenEvent.closeCompleted i ∈ l.flatMap closureBlock := by
  rw [List.mem_flatMap]
  exact ⟨i, h, by simp [closureBlock]⟩

theorem openIssued_not_mem_flatMap (l : List String) (x : String) :
    OpenEvent.openIssued x ∉ l.flatMap closureBlock := by
  rw [List.mem_flatMap]
  rintro ⟨a, -, ha⟩
  simp [closureBlock] at ha

theorem closesOutstanding_take_le_one (l : List String) (tl : List OpenEvent)
    (htl : ∀ i, OpenEvent.closeIssued i ∉ tl ∧ OpenEvent.closeCompleted i ∉ tl) :
    ∀ n, (closesOutstanding ((l.flatMap closureBlock ++ tl).take n)).length ≤ 1 := by
  induction l with
  | nil =>
    intro n
    have hz : closesOutstanding (tl.take n) = [] := by
      apply foldl_closeStep_neutral
      intro i
      exact ⟨fun hx => (htl i).1 (List.take_subset _ _ hx),
        fun hx => (htl i).2 (List.take_subset _ _ hx)⟩
    simp [hz]
  | cons d l ih =>
    intro n
    match n with
    | 0 => simp [closesOutstanding]
    | 1 =>
      have h1 : (((d :: l).flatMap closureBlock) ++ tl).take 1
          = [OpenEvent.cbDeleted d] := by
        simp [List.flatMap_cons, closureBlock]
      rw [h1]
      simp [closesOutstanding, closeStep]
    | 2 =>
      have h2 : (((d :: l).flatMap closureBlock) ++ tl).take 2
          = [OpenEvent.cbDeleted d, OpenEvent.closeIssued d] := by
        simp [List.flatMap_cons, closureBlock]
      rw [h2]
      simp [closesOutstanding, closeStep]
    | (m+3) =>
      have hshape : (((d :: l).flatMap closureBlock) ++ tl).take (m+3)
          = OpenEvent.cbDeleted d :: OpenEvent.closeIssued d ::
            OpenEvent.closeCompleted d ::
              ((l.flatMap closureBlock ++ tl).take m) := by
        simp [List.flatMap_cons, closureBlock, List.take_succ_cons]
      rw [hshape]
      have hfold : closesOutstanding
          (OpenEvent.cbDeleted d :: OpenEvent.closeIssued d ::
            OpenEvent.closeCompleted d ::
              ((l.flatMap closureBlock ++ tl).take m))
          = closesOutstanding ((l.flatMap closureBlock ++ tl).take m) := by
        show List.foldl closeStep _ _ = _
        simp only [List.foldl_cons]
        have : closeStep (closeStep (closeStep [] (OpenEvent.cbDeleted d))
            (OpenEvent.closeIssued d)) (OpenEvent.closeCompleted d) = [] := by
          simp [closeStep, List.erase_cons_head]
        rw [this]
        rfl
      rw [hfold]
      exact ih m

/-- C5: in every execution of `createPopoverController.open` with an
`exclusive` argument, the close commands for the selected group members are
issued and completed one at a time in selection order (at most one close is
ever in flight), and the trace ends with the single `open_popover` command,
before which every selected member's close has completed and no close is
outstanding. -/
theorem exclusive_closures_sequential_before_open
    (ex : Exclusive) (S : List String) (openingId : String) (hc : Bool) :
    (closesIssuedIn (controllerOpenTrace ex S openingId hc)
        = popoversToClose ex S openingId) ∧
    (closesCompletedIn (controllerOpenTrace ex S openingId hc)
        = popoversToClose ex S openingId) ∧
    (∀ n, (closesOutstanding
        ((controllerOpenTrace ex S openingId hc).take n)).length ≤ 1) ∧
    (∃ body, controllerOpenTrace ex S openingId hc
        = body ++ [OpenEvent.openIssued openingId] ∧
      OpenEvent.openIssued openingId ∉ body ∧
      closesOutstanding body = [] ∧
      ∀ i ∈ popoversToClose ex S openingId,
        OpenEvent.closeCompleted i ∈ body) := by
  have htl : ∀ i, OpenEvent.closeIssued i
        ∉ ((if hc then [OpenEvent.cbSet openingId] else [])
            ++ [OpenEvent.openIssued openingId]) ∧
      OpenEvent.closeCompleted i
        ∉ ((if hc then [OpenEvent.cbSet openingId] else [])
            ++ [OpenEvent.openIssued openingId]) := by
    intro i
    cases hc <;> simp
  refine ⟨?_, ?_, ?_, ?_⟩
  · rw [controllerOpenTrace, closesIssuedIn_append, closesIssuedIn_append,
      closesIssuedIn_flatMap]
    cases hc <;> simp [closesIssuedIn]
  · rw [controllerOpenTrace, closesCompletedIn_append, closesCompletedIn_append,
      closesCompletedIn_flatMap]
    cases hc <;> simp [closesCompletedIn]
  · intro n
    rw [controllerOpenTrace, List.append_assoc]
    exact closesOutstanding_take_le_one _ _ htl n
  · refine ⟨(popoversToClose ex S openingId).flatMap closureBlock
        ++ (if hc then [OpenEvent.cbSet openingId] else []), ?_, ?_, ?_, ?_⟩
    · rw [controllerOpenTrace]
    · intro hmem
      rcases List.mem_append.mp hmem with h | h
      · exact openIssued_not_mem_flatMap _ _ h
      · cases hc <;> simp at h
    · rw [closesOutstanding_flatMap_append]
      apply foldl_closeStep_neutral
      intro i
      cases hc <;> simp
    · intro i hi
      exact List.mem_append_left _ (closeCompleted_mem_flatMap hi)

/-- Witness for C5: with `exclusive = "github"`, opening `github-prs` while
`github-issues` and `clock` are open issues and completes exactly the close
of `github-issues`, never has more than one close in flight, and completes
it before `open_popover` is issued. -/
theorem exclusive_closures_sequential_before_open_witness :
    (closesIssuedIn (controllerOpenTrace (.str "github")
        ["github-issues", "clock"] "github-prs" false) = ["github-issues"]) ∧
    (closesCompletedIn (controllerOpenTrace (.str "github")
        ["github-issues", "clock"] "github-prs" false) = ["github-issues"]) ∧
    ((closesOutstanding ((controllerOpenTrace (.str "github")
        ["github-issues", "clock"] "github-prs" false).take 2)).length ≤ 1) ∧
    (OpenEvent.closeCompleted "github-issues"
        ∈ controllerOpenTrace (.str "github")
            ["github-issues", "clock"] "github-prs" false) := by
  have h := exclusive_closures_sequential_before_open (.str "github")
    ["github-issues", "clock"] "github-prs" false
  refine ⟨?_, ?_, h.2.2.1 2, ?_⟩
  · rw [h.1]; decide
  · rw [h.2.1]; decide
  · obtain ⟨body, hbody, -, -, hmem⟩ := h.2.2.2
    rw [hbody]
    exact List.mem_append_left _ (hmem "github-issues" (by decide))

end Fluopanel

namespace Fluopanel

/-! ## Callback bookkeeping of the controller (`createPopoverController`) -/

/-- The controller's `closeCallbacks` map, with callbacks represented by
opaque tokens. -/
abbrev CbTable := List (String × Nat)

/-- Embedding of `closeCallbacks.delete(id)`. -/
def cbDelete (t : CbTable) (id : String) : CbTable :=
  t.filter (fun p => p.1 != id)

/-- The callback table after the closure loop of `open` has run over the
selected members (each iteration starts with `closeCallbacks.delete(id)`). -/
def closureLoopTable (toClose : List String) (t : CbTable) : CbTable :=
  toClose.foldl cbDelete t

/-- Embedding of the `popover-closed` listener installed by
`ensureCloseListener`: look up the callback registered for the id; if
present, invoke it (the returned token) and delete the registration,
otherwise do nothing. -/
def handlePopoverClosed (t : CbTable) (pid : String) : Option Nat × CbTable :=
  match t.find? (fun p => p.1 == pid) with
  | some p => (some p.2, t.filter (fun q => q.1 != pid))
  | none => (none, t)

theorem cbDeleted_before_closeIssued (tl : List OpenEvent)
    (htl : ∀ i, OpenEvent.closeIssued i ∉ tl) :
    ∀ (l : List String) (pre suf : List OpenEvent) (i : String),
      l.flatMap closureBlock ++ tl = pre ++ OpenEvent.closeIssued i :: suf →
      OpenEvent.cbDeleted i ∈ pre := by
  intro l
  induction l with
  | nil =>
    intro pre suf i h
    simp only [List.flatMap_nil, List.nil_append] at h
    exact absurd (h ▸ (List.mem_append_right pre (by simp))) (htl i)
  | cons d l ih =>
    intro pre suf i h
    rw [List.flatMap_cons, List.append_assoc] at h
    rcases pre with _ | ⟨e1, pre1⟩
    · simp only [closureBlock, List.nil_append, List.cons_append] at h
      injection h with h1 h2
      simp at h1
    · rcases pre1 with _ | ⟨e2, pre2⟩
      · simp only [closureBlock, List.cons_append, List.nil_append] at h
        injection h with h1 h2
        injection h2 with h3 h4
        have hdi : d = i := by
          injection h3
        simp [← h1, hdi]
      · rcases pre2 with _ | ⟨e3, pre3⟩
        · simp only [closureBlock, List.cons_append, List.nil_append] at h
          injection h with h1 h2
          injection h2 with h3 h4
          injection h4 with h5 h6
          simp at h5
        · simp only [closureBlock, List.cons_append] at h
          injection h with h1 h2
          injection h2 with h3 h4
          injection h4 with h5 h6
          have hrec := ih pre3 suf i h6
          simp [hrec]

theorem mem_closureLoopTable (toClose : List String) :
    ∀ (t : CbTable) (x : String) (cb : Nat),
      ((x, cb) ∈ closureLoopTable toClose t ↔ (x, cb) ∈ t ∧ x ∉ toClose) := by
  induction toClose with
  | nil => simp [closureLoopTable]
  | cons d ds ih =>
    intro t x cb
    show (x, cb) ∈ closureLoopTable ds (cbDelete t d) ↔ _
    rw [ih]
    simp only [cbDelete, List.mem_filter, bne_iff_ne, List.mem_cons]
    constructor
    · rintro ⟨⟨hmem, hne⟩, hnin⟩
      exact ⟨hmem, by
        rintro (rfl | hx)
        · exact hne rfl
        · exact hnin hx⟩
    · rintro ⟨hmem, hnor⟩
      refine ⟨⟨hmem, fun hx => hnor (Or.inl hx)⟩, fun hx => hnor (Or.inr hx)⟩

theorem find?_closureLoopTable_eq_none (toClose : List String) (t : CbTable)
    (i : String) (hi : i ∈ toClose) :
    (closureLoopTable toClose t).find? (fun p => p.1 == i) = none := by
  rw [List.find?_eq_none]
  rintro ⟨x, cb⟩ hp
  have hx := (mem_closureLoopTable toClose t x cb).mp hp
  intro hbe
  have : x = i := by simpa using hbe
  exact hx.2 (this ▸ hi)

/-- C9: during an exclusive open, each selected member's callback
registration is deleted from the controller's table before that member's
close command is issued; after the closure loop a selected member's
`popover-closed` event finds no registration and so invokes nothing; the
registrations of popovers not selected for closure survive the loop
unchanged; and, in general, the listener invokes no callback for an id
with no registration. -/
theorem exclusive_close_callback_removal
    (ex : Exclusive) (S : List String) (openingId : String) (hc : Bool)
    (table : CbTable) :
    (∀ (pre suf : List OpenEvent) (i : String),
      controllerOpenTrace ex S openingId hc
          = pre ++ OpenEvent.closeIssued i :: suf →
      OpenEvent.cbDeleted i ∈ pre) ∧
    (∀ i ∈ popoversToClose ex S openingId,
      handlePopoverClosed
          (closureLoopTable (popoversToClose ex S openingId) table) i
        = (none, closureLoopTable (popoversToClose ex S openingId) table)) ∧
    (∀ (x : String) (cb : Nat), x ∉ popoversToClose ex S openingId →
      ((x, cb) ∈ closureLoopTable (popoversToClose ex S openingId) table
        ↔ (x, cb) ∈ table)) ∧
    (∀ (t : CbTable) (pid : String),
      t.find? (fun p => p.1 == pid) = none →
      handlePopoverClosed t pid = (none, t)) := by
  refine ⟨?_, ?_, ?_, ?_⟩
  · intro pre suf i h
    rw [controllerOpenTrace, List.append_assoc] at h
    refine cbDeleted_before_closeIssued _ ?_ _ pre suf i h
    intro j
    cases hc <;> simp
  · intro i hi
    unfold handlePopoverClosed
    rw [find?_closureLoopTable_eq_none _ _ _ hi]
  · intro x cb hx
    rw [mem_closureLoopTable]
    exact and_iff_left hx
  · intro t pid h
    unfold handlePopoverClosed
    rw [h]

/-- Witness for C9: opening `github-prs` with `exclusive = "github"` while
`github-issues` and `clock` are registered: the deletion of
`github-issues`'s callback precedes its close command in the trace, its
`popover-closed` event then invokes nothing, and `clock`'s registration is
untouched. -/
theorem exclusive_close_callback_removal_witness :
    (OpenEvent.cbDeleted "github-issues"
        ∈ [OpenEvent.cbDeleted "github-issues"]) ∧
    (handlePopoverClosed
        (closureLoopTable
          (popoversToClose (.str "github") ["github-issues", "clock"]
            "github-prs")
          [("github-issues", 1), ("clock", 2)]) "github-issues"
      = (none, closureLoopTable
          (popoversToClose (.str "github") ["github-issues", "clock"]
            "github-prs")
          [("github-issues", 1), ("clock", 2)])) ∧
    (("clock", 2) ∈ closureLoopTable
        (popoversToClose (.str "github") ["github-issues", "clock"]
          "github-prs")
        [("github-issues", 1), ("clock", 2)]) := by
  have h := exclusive_close_callback_removal (.str "github")
    ["github-issues", "clock"] "github-prs" false
    [("github-issues", 1), ("clock", 2)]
  refine ⟨?_, ?_, ?_⟩
  · exact h.1 [OpenEvent.cbDeleted "github-issues"]
      [OpenEvent.closeCompleted "github-issues",
        OpenEvent.openIssued "github-prs"] "github-issues" (by decide)
  · exact h.2.1 "github-issues" (by decide)
  · exact (h.2.2.1 "clock" 2 (by decide)).mpr (by decide)

end Fluopanel

namespace Fluopanel

/-! ## Pending-window registry (`windowRegistry.ts`) -/

/-- The module-level state of windowRegistry.ts: the pending and completed
id sets (JS `Set`, modelled as duplicate-free insertion-ordered lists) and
the queued `waitForAllWindows` resolvers (tokens). -/
structure RegState where
  pending : List String
  completed : List String
  resolvers : List Nat
deriving DecidableEq, Repr

/-- JS `Set.add`: append the element unless already present. -/
def regInsert (l : List String) (id : String) : List String :=
  if id ∈ l then l else l ++ [id]

/-- Embedding of `registerPendingWindow`. -/
def registerPendingWindow (s : RegState) (id : String) : RegState :=
  { s with pending := regInsert s.pending id }

/-- Embedding of `markWindowCompleted`: delete from pending, add to
completed, and if the pending set is now empty and resolvers are queued,
resolve them all and clear the queue.  The second component is the list of
resolver tokens resolved by this call. -/
def markWindowCompleted (s : RegState) (id : String) : RegState × List Nat :=
  let pending1 := s.pending.filter (fun x => x != id)
  let completed1 := regInsert s.completed id
  if pending1.isEmpty ∧ s.resolvers ≠ [] then
    ({ pending := pending1, completed := completed1, resolvers := [] },
      s.resolvers)
  else
    ({ pending := pending1, completed := completed1,
        resolvers := s.resolvers }, [])

/-- Embedding of `waitForAllWindows` for a fresh waiter token `w`: when the
pending set is empty the promise is already resolved (second component
`true`); otherwise the resolver is queued and the promise stays pending. -/
def waitForAllWindows (s : RegState) (w : Nat) : RegState × Bool :=
  if s.pending.isEmpty then (s, true)
  else ({ s with resolvers := s.resolvers ++ [w] }, false)

/-- The three public operations of windowRegistry.ts. -/
inductive RegOp
  | reg (id : String)
  | complete (id : String)
  | wait (w : Nat)
deriving DecidableEq, Repr

/-- One operation against the registry state; the second component lists the
resolver tokens resolved during the operation. -/
def regStep (s : RegState) : RegOp → RegState × List Nat
  | .reg id => (registerPendingWindow s id, [])
  | .complete id => markWindowCompleted s id
  | .wait w => ((waitForAllWindows s w).1, [])

/-- Run a sequence of operations. -/
def regRun (s : RegState) : List RegOp → RegState
  | [] => s
  | op :: rest => regRun (regStep s op).1 rest

/-- All resolver tokens resolved while running a sequence of operations. -/
def regResolved (s : RegState) : List RegOp → List Nat
  | [] => []
  | op :: rest => (regStep s op).2 ++ regResolved (regStep s op).1 rest

theorem exists_prefix_cons_iff (op : RegOp) (rest : List RegOp) (s : RegState)
    (hp : s.pending ≠ []) :
    (∃ p, p <+: op :: rest ∧ (regRun s p).pending = []) ↔
      (∃ p, p <+: rest ∧ (regRun (regStep s op).1 p).pending = []) := by
  constructor
  · rintro ⟨p, hpre, hrun⟩
    rcases List.prefix_cons_iff.mp hpre with rfl | ⟨t, rfl, ht⟩
    · exact absurd hrun hp
    · exact ⟨t, ht, hrun⟩
  · rintro ⟨p, hpre, hrun⟩
    exact ⟨op :: p, List.cons_prefix_cons.mpr ⟨rfl, hpre⟩, hrun⟩

theorem regResolved_mem_iff (w : Nat) : ∀ (ops : List RegOp) (s : RegState),
    w ∈ s.resolvers → s.pending ≠ [] →
    (w ∈ regResolved s ops ↔
      ∃ p, p <+: ops ∧ (regRun s p).pending = []) := by
  intro ops
  induction ops with
  | nil =>
    intro s hw hp
    simp only [regResolved, List.not_mem_nil, false_iff]
    rintro ⟨p, hpre, hrun⟩
    rw [List.prefix_nil.mp hpre] at hrun
    exact hp hrun
  | cons op rest ih =>
    intro s hw hp
    cases op with
    | reg id =>
      have hp1 : (registerPendingWindow s id).pending ≠ [] := by
        simp only [registerPendingWindow, regInsert]
        split
        · exact hp
        · simp
      have hw1 : w ∈ (registerPendingWindow s id).resolvers := hw
      rw [show regResolved s (RegOp.reg id :: rest)
          = regResolved (registerPendingWindow s id) rest from rfl]
      rw [ih _ hw1 hp1]
      exact (exists_prefix_cons_iff (.reg id) rest s hp).symm
    | wait w' =>
      have hpe : s.pending.isEmpty = false := by
        rcases hs : s.pending with _ | ⟨a, l⟩
        · exact absurd hs hp
        · rfl
      have hstep : regStep s (RegOp.wait w')
          = ({ s with resolvers := s.resolvers ++ [w'] }, []) := by
        simp [regStep, waitForAllWindows, hpe]
      have hw1 : w ∈ (regStep s (RegOp.wait w')).1.resolvers := by
        rw [hstep]
        exact List.mem_append_left _ hw
      have hp1 : (regStep s (RegOp.wait w')).1.pending ≠ [] := by
        rw [hstep]
        exact hp
      rw [show regResolved s (RegOp.wait w' :: rest)
          = (regStep s (RegOp.wait w')).2
            ++ regResolved (regStep s (RegOp.wait w')).1 rest from rfl]
      rw [hstep]
      simp only [List.nil_append]
      rw [ih _ (by rw [hstep] at hw1; exact hw1) (by rw [hstep] at hp1; exact hp1)]
      have := (exists_prefix_cons_iff (.wait w') rest s hp).symm
      rw [hstep] at this
      exact this
    | complete id =>
      by_cases hguard : (s.pending.filter (fun x => x != id)).isEmpty
      · -- this completion empties the pending set: every queued resolver
        -- (w among them) is resolved right here
        have hres : s.resolvers ≠ [] := List.ne_nil_of_mem hw
        have hstep : regStep s (RegOp.complete id)
            = ({ pending := s.pending.filter (fun x => x != id),
                  completed := regInsert s.completed id, resolvers := [] },
                s.resolvers) := by
          simp [regStep, markWindowCompleted, hguard, hres]
        constructor
        · intro _
          refine ⟨[RegOp.complete id], ⟨rest, rfl⟩, ?_⟩
          show (regStep s (RegOp.complete id)).1.pending = []
          rw [hstep]
          exact List.isEmpty_iff.mp hguard
        · intro _
          rw [show regResolved s (RegOp.complete id :: rest)
              = (regStep s (RegOp.complete id)).2
                ++ regResolved (regStep s (RegOp.complete id)).1 rest from rfl]
          rw [hstep]
          exact List.mem_append_left _ hw
      · have hstep : regStep s (RegOp.complete id)
            = ({ pending := s.pending.filter (fun x => x != id),
                  completed := regInsert s.completed id,
                  resolvers := s.resolvers }, []) := by
          simp [regStep, markWindowCompleted, hguard]
        have hp1 : (regStep s (RegOp.complete id)).1.pending ≠ [] := by
          rw [hstep]
          intro hc
          exact hguard (List.isEmpty_iff.mpr hc)
        have hw1 : w ∈ (regStep s (RegOp.complete id)).1.resolvers := by
          rw [hstep]
          exact hw
        rw [show regResolved s (RegOp.complete id :: rest)
            = (regStep s (RegOp.complete id)).2
              ++ regResolved (regStep s (RegOp.complete id)).1 rest from rfl]
        have heq : (regStep s (RegOp.complete id)).2 = [] := by rw [hstep]
        rw [heq]
        simp only [List.nil_append]
        rw [ih _ hw1 hp1]
        exact (exists_prefix_cons_iff (.complete id) rest s hp).symm

end Fluopanel

namespace Fluopanel

/-- C6: `waitForAllWindows` returns an already-resolved promise when the
pending set is empty; with a non-empty pending set the waiter is queued
unresolved; a step resolves waiters only when it is a `markWindowCompleted`
that empties the pending set, and then it resolves exactly the queued
waiters; and a waiter queued while the pending set is non-empty is resolved
in a run of operations precisely when some prefix of the run empties the
pending set — so if the pending set never empties, the promise never
resolves. -/
theorem waitForAllWindows_spec (s : RegState) (w : Nat) :
    (s.pending = [] → waitForAllWindows s w = (s, true)) ∧
    (s.pending ≠ [] → waitForAllWindows s w
        = ({ s with resolvers := s.resolvers ++ [w] }, false)) ∧
    (∀ op, (regStep s op).2 ≠ [] →
      (∃ id, op = RegOp.complete id) ∧ (regStep s op).1.pending = [] ∧
      (regStep s op).2 = s.resolvers ∧ (regStep s op).1.resolvers = []) ∧
    (∀ ops, w ∈ s.resolvers → s.pending ≠ [] →
      (w ∈ regResolved s ops ↔
        ∃ p, p <+: ops ∧ (regRun s p).pending = [])) := by
  refine ⟨?_, ?_, ?_, ?_⟩
  · intro h
    simp [waitForAllWindows, h]
  · intro h
    have hpe : s.pending.isEmpty = false := by
      rcases hs : s.pending with _ | ⟨a, l⟩
      · exact absurd hs h
      · rfl
    simp [waitForAllWindows, hpe]
  · intro op hres
    cases op with
    | reg id => exact absurd rfl hres
    | wait w' => exact absurd rfl hres
    | complete id =>
      by_cases hguard : (s.pending.filter (fun x => x != id)).isEmpty
          ∧ s.resolvers ≠ []
      · have hstep : regStep s (RegOp.complete id)
            = ({ pending := s.pending.filter (fun x => x != id),
                  completed := regInsert s.completed id, resolvers := [] },
                s.resolvers) := by
          simp only [regStep, markWindowCompleted]
          rw [if_pos (by exact_mod_cast hguard)]
        refine ⟨⟨id, rfl⟩, ?_, ?_, ?_⟩
        · rw [hstep]
          exact List.isEmpty_iff.mp (by exact_mod_cast hguard.1)
        · rw [hstep]
        · rw [hstep]
      · have hstep : regStep s (RegOp.complete id)
            = ({ pending := s.pending.filter (fun x => x != id),
                  completed := regInsert s.completed id,
                  resolvers := s.resolvers }, []) := by
          simp only [regStep, markWindowCompleted]
          rw [if_neg (by exact_mod_cast hguard)]
        rw [hstep] at hres
        exact absurd rfl hres
  · intro ops hw hp
    exact regResolved_mem_iff w ops s hw hp

/-- Witness for C6: with nothing pending the wait resolves immediately; with
window `a` pending, waiter `7` is queued unresolved and is resolved by the
`markWindowCompleted "a"` call that empties the pending set. -/
theorem waitForAllWindows_spec_witness :
    (waitForAllWindows { pending := [], completed := [], resolvers := [] } 7
      = ({ pending := [], completed := [], resolvers := [] }, true)) ∧
    (waitForAllWindows { pending := ["a"], completed := [], resolvers := [] } 7
      = ({ pending := ["a"], completed := [], resolvers := [7] }, false)) ∧
    (7 ∈ regResolved { pending := ["a"], completed := [], resolvers := [7] }
        [RegOp.complete "a"]) := by
  refine ⟨?_, ?_, ?_⟩
  · exact (waitForAllWindows_spec
      { pending := [], completed := [], resolvers := [] } 7).1 rfl
  · have h := (waitForAllWindows_spec
      { pending := ["a"], completed := [], resolvers := [] } 7).2.1 (by decide)
    simpa using h
  · exact ((waitForAllWindows_spec
      { pending := ["a"], completed := [], resolvers := [7] } 7).2.2.2
      [RegOp.complete "a"] (by decide) (by decide)).mpr
      ⟨[RegOp.complete "a"], by decide, by decide⟩

end Fluopanel

namespace Fluopanel

/-! ## Content auto-sizing (`useAutoSize.ts`) -/

/-- The options of `useAutoSize` (enabled and the min/max bounds, each
possibly omitted; refs are already unwrapped to their values). -/
structure AutoSizeOptions where
  enabled : Option Bool
  minWidth : Option Int
  minHeight : Option Int
  maxWidth : Option Int
  maxHeight : Option Int
deriving DecidableEq, Repr

/-- The DOM measurements of a scrollable child element found by the
`querySelector` in `updateSize`. -/
structure ScrollMeasure where
  scrollHeight : Nat
  clientHeight : Nat
deriving DecidableEq, Repr

/-- The DOM measurements of the observed element that `updateSize` reads:
`scrollWidth`/`scrollHeight` (non-negative by the DOM) and the optional
scrollable child. -/
structure ElementMeasure where
  scrollWidth : Nat
  scrollHeight : Nat
  scrollableChild : Option ScrollMeasure
deriving DecidableEq, Repr

/-- The composable's recorded `width`/`height` refs. -/
structure AutoSizeState where
  width : Int
  height : Int
deriving DecidableEq, Repr

/-- Embedding of `isEnabled`: undefined means enabled. -/
def isEnabled (o : AutoSizeOptions) : Bool := o.enabled.getD true

/-- Embedding of the `clamp` helper in useAutoSize.ts: apply the min bound
then the max bound, each only when supplied. -/
def autoClamp (value : Int) (minV maxV : Option Int) : Int :=
  let r1 := match minV with
    | some m => max value m
    | none => value
  match maxV with
  | some m => min r1 m
  | none => r1

/-- Embedding of the size computation in `updateSize`: the width is the
clamped `scrollWidth`; the total content height adds a scrollable child's
hidden portion when positive; the height is `maxHeight` when that bound is
truthy (non-zero) and the total exceeds it, else the clamped
`scrollHeight`. -/
def computeNewSize (o : AutoSizeOptions) (e : ElementMeasure) : Int × Int :=
  let rawW : Int := e.scrollWidth
  let rawH : Int := e.scrollHeight
  let total : Int := rawH + (match e.scrollableChild with
    | some c =>
      let hidden : Int := (c.scrollHeight : Int) - (c.clientHeight : Int)
      if 0 < hidden then hidden else 0
    | none => 0)
  let newW := autoClamp rawW o.minWidth o.maxWidth
  let newH := match o.maxHeight with
    | some m => if m ≠ 0 ∧ total > m then m
        else autoClamp rawH o.minHeight o.maxHeight
    | none => autoClamp rawH o.minHeight o.maxHeight
  (newW, newH)

/-- Embedding of `updateSize`: no element or disabled → no effect; equal or
zero computed dimensions → no effect; otherwise record the new size and
issue `set_window_size` with it (the second component). -/
def updateSize (o : AutoSizeOptions) (elem : Option ElementMeasure)
    (st : AutoSizeState) : AutoSizeState × Option (Int × Int) :=
  match elem with
  | none => (st, none)
  | some e =>
    if isEnabled o then
      if (computeNewSize o e).1 = st.width ∧ (computeNewSize o e).2 = st.height
        then (st, none)
      else if (computeNewSize o e).1 = 0 ∨ (computeNewSize o e).2 = 0
        then (st, none)
      else ({ width := (computeNewSize o e).1,
              height := (computeNewSize o e).2 },
            some ((computeNewSize o e).1, (computeNewSize o e).2))
    else (st, none)

/-- C10 (counterexample): with a negative `maxWidth` bound (`-5`), an
enabled update on a 10×10 element issues `set_window_size` with width
`-5`, which is not strictly positive — so the claim that the command is
only ever issued with strictly positive dimensions is false as stated. -/
theorem updateSize_nonpositive_command :
    updateSize
        { enabled := none, minWidth := none, minHeight := none,
          maxWidth := some (-5), maxHeight := none }
        (some { scrollWidth := 10, scrollHeight := 10,
                scrollableChild := none })
        { width := 0, height := 0 }
      = ({ width := -5, height := 10 }, some (-5, 10)) ∧
    ¬ (0 < (-5 : Int)) := by
  exact ⟨by decide, by decide⟩

end Fluopanel

namespace Fluopanel

theorem autoClamp_nonneg (v : Int) (mn mx : Option Int) (hv : 0 ≤ v)
    (hmn : ∀ m, mn = some m → 0 ≤ m) (hmx : ∀ m, mx = some m → 0 ≤ m) :
    0 ≤ autoClamp v mn mx := by
  unfold autoClamp
  cases mn with
  | none =>
    cases mx with
    | none => exact hv
    | some m => exact le_min hv (hmx m rfl)
  | some m =>
    cases mx with
    | none => exact le_trans hv (le_max_left v m)
    | some m2 => exact le_min (le_trans hv (le_max_left v m)) (hmx m2 rfl)

theorem computeNewSize_nonneg (o : AutoSizeOptions) (e : ElementMeasure)
    (hminW : ∀ m, o.minWidth = some m → 0 ≤ m)
    (hmaxW : ∀ m, o.maxWidth = some m → 0 ≤ m)
    (hminH : ∀ m, o.minHeight = some m → 0 ≤ m)
    (hmaxH : ∀ m, o.maxHeight = some m → 0 ≤ m) :
    0 ≤ (computeNewSize o e).1 ∧ 0 ≤ (computeNewSize o e).2 := by
  unfold computeNewSize
  constructor
  · exact autoClamp_nonneg _ _ _ (Int.natCast_nonneg _) hminW hmaxW
  · rcases hmh : o.maxHeight with _ | m
    · rw [hmh] at hmaxH
      simp only [hmh]
      exact autoClamp_nonneg _ _ _ (Int.natCast_nonneg _) hminH hmaxH
    · have hm : 0 ≤ m := hmaxH m hmh
      rw [hmh] at hmaxH
      simp only [hmh]
      split
      · exact hm
      · exact autoClamp_nonneg _ _ _ (Int.natCast_nonneg _) hminH hmaxH

/-- C10 (amended): `set_window_size` is issued only with nonzero width and
height, and with strictly positive width and height whenever every
supplied min/max bound is non-negative (as in every in-repo usage, where
`maxHeight` is the host-computed positive maximum); when the element is
absent, auto-sizing is disabled, a computed dimension is zero, or the
computed dimensions equal the previously recorded ones, no command is
issued and the recorded width and height are left unchanged. -/
theorem updateSize_issues_only_positive
    (o : AutoSizeOptions) (elem : Option ElementMeasure)
    (st : AutoSizeState) :
    (∀ w h, (updateSize o elem st).2 = some (w, h) →
      w ≠ 0 ∧ h ≠ 0 ∧ (updateSize o elem st).1 = { width := w, height := h }) ∧
    ((updateSize o elem st).2 = none → (updateSize o elem st).1 = st) ∧
    (elem = none → (updateSize o elem st).2 = none) ∧
    (isEnabled o = false → (updateSize o elem st).2 = none) ∧
    (∀ e, elem = some e →
      (computeNewSize o e).1 = st.width → (computeNewSize o e).2 = st.height →
      (updateSize o elem st).2 = none) ∧
    (∀ e, elem = some e →
      ((computeNewSize o e).1 = 0 ∨ (computeNewSize o e).2 = 0) →
      (updateSize o elem st).2 = none) ∧
    ((∀ m, o.minWidth = some m → 0 ≤ m) → (∀ m, o.maxWidth = some m → 0 ≤ m) →
     (∀ m, o.minHeight = some m → 0 ≤ m) →
     (∀ m, o.maxHeight = some m → 0 ≤ m) →
     ∀ w h, (updateSize o elem st).2 = some (w, h) → 0 < w ∧ 0 < h) := by
  rcases elem with _ | e
  · refine ⟨?_, ?_, ?_, ?_, ?_, ?_, ?_⟩
    · intro w h hc
      simp [updateSize] at hc
    · intro _
      rfl
    · intro _
      rfl
    · intro _
      rfl
    · intro e he
      cases he
    · intro e he
      cases he
    · intro _ _ _ _ w h hc
      simp [updateSize] at hc
  · by_cases hen : isEnabled o
    · by_cases heq : (computeNewSize o e).1 = st.width
          ∧ (computeNewSize o e).2 = st.height
      · have hres : updateSize o (some e) st = (st, none) := by
          simp [updateSize, hen, heq]
        refine ⟨?_, ?_, ?_, ?_, ?_, ?_, ?_⟩
        · intro w h hc
          rw [hres] at hc
          cases hc
        · intro _
          rw [hres]
        · intro hc
          cases hc
        · intro hc
          rw [hen] at hc
          cases hc
        · intro _ _ _ _
          rw [hres]
        · intro e' he' _
          rw [hres]
        · intro _ _ _ _ w h hc
          rw [hres] at hc
          cases hc
      · by_cases hz : (computeNewSize o e).1 = 0 ∨ (computeNewSize o e).2 = 0
        · have hres : updateSize o (some e) st = (st, none) := by
            simp only [updateSize]
            rw [if_pos hen, if_neg heq, if_pos hz]
          refine ⟨?_, ?_, ?_, ?_, ?_, ?_, ?_⟩
          · intro w h hc
            rw [hres] at hc
            cases hc
          · intro _
            rw [hres]
          · intro hc
            cases hc
          · intro hc
            rw [hen] at hc
            cases hc
          · intro _ _ _ _
            rw [hres]
          · intro e' he' _
            rw [hres]
          · intro _ _ _ _ w h hc
            rw [hres] at hc
            cases hc
        · have hres : updateSize o (some e) st
              = ({ width := (computeNewSize o e).1,
                    height := (computeNewSize o e).2 },
                  some ((computeNewSize o e).1, (computeNewSize o e).2)) := by
            simp only [updateSize]
            rw [if_pos hen, if_neg heq, if_neg hz]
          push_neg at hz
          refine ⟨?_, ?_, ?_, ?_, ?_, ?_, ?_⟩
          · intro w h hc
            rw [hres] at hc
            simp only [Option.some.injEq, Prod.mk.injEq] at hc
            obtain ⟨hw, hh⟩ := hc
            subst hw
            subst hh
            exact ⟨hz.1, hz.2, by rw [hres]⟩
          · intro hc
            rw [hres] at hc
            cases hc
          · intro hc
            cases hc
          · intro hc
            rw [hen] at hc
            cases hc
          · intro e' he' h1 h2
            cases he'
            exact absurd ⟨h1, h2⟩ heq
          · intro e' he' hz'
            cases he'
            rcases hz' with hzw | hzh
            · exact absurd hzw hz.1
            · exact absurd hzh hz.2
          · intro hminW hmaxW hminH hmaxH w h hc
            rw [hres] at hc
            have hnn := computeNewSize_nonneg o e hminW hmaxW hminH hmaxH
            simp only [Option.some.injEq, Prod.mk.injEq] at hc
            obtain ⟨hw, hh⟩ := hc
            subst hw
            subst hh
            exact ⟨lt_of_le_of_ne hnn.1 (Ne.symm hz.1),
              lt_of_le_of_ne hnn.2 (Ne.symm hz.2)⟩
    · have hres : updateSize o (some e) st = (st, none) := by
        simp [updateSize, hen]
      refine ⟨?_, ?_, ?_, ?_, ?_, ?_, ?_⟩
      · intro w h hc
        rw [hres] at hc
        cases hc
      · intro _
        rw [hres]
      · intro hc
        cases hc
      · intro _
        rw [hres]
      · intro _ _ _ _
        rw [hres]
      · intro e' he' _
        rw [hres]
      · intro _ _ _ _ w h hc
        rw [hres] at hc
        cases hc

end Fluopanel

namespace Fluopanel

/-- Witness for C10 (amended): the auto-size clamp scenario — maxHeight 300,
content 400×600 — issues `set_window_size` with the strictly positive
clamped size 400×300. -/
theorem updateSize_issues_only_positive_witness :
    (updateSize
        { enabled := none, minWidth := none, minHeight := none,
          maxWidth := none, maxHeight := some 300 }
        (some { scrollWidth := 400, scrollHeight := 600,
                scrollableChild := none })
        { width := 0, height := 0 }).2 = some (400, 300) ∧
    ((0 : Int) < 400 ∧ (0 : Int) < 300) := by
  refine ⟨by decide, ?_⟩
  exact (updateSize_issues_only_positive
      { enabled := none, minWidth := none, minHeight := none,
        maxWidth := none, maxHeight := some 300 }
      (some { scrollWidth := 400, scrollHeight := 600,
              scrollableChild := none })
      { width := 0, height := 0 }).2.2.2.2.2.2
    (fun m hm => by cases hm) (fun m hm => by cases hm)
    (fun m hm => by cases hm) (fun m hm => by cases hm; decide)
    400 300 (by decide)

end Fluopanel

namespace Fluopanel

/-! ## Geometry Solver (native side, modelled from the spec §4.1) -/

/-- A monitor record: name, logical size, and virtual-desktop origin
(top-left convention).  Coordinates are rationals since fractional logical
pixels are permitted. -/
structure MonitorInfo where
  name : String
  width : ℚ
  height : ℚ
  x : ℚ
  y : ℚ
deriving DecidableEq, Repr

/-- A position descriptor: the optional monitor name and the optional
top/bottom/left/right/width/height fields, in logical pixels. -/
structure WindowPositionDescriptor where
  monitor : Option String
  top : Option ℚ
  bottom : Option ℚ
  left : Option ℚ
  right : Option ℚ
  width : Option ℚ
  height : Option ℚ
deriving DecidableEq, Repr

/-- The solved absolute rectangle in virtual-desktop logical pixels. -/
structure SolvedRect where
  x : ℚ
  y : ℚ
  w : ℚ
  h : ℚ
deriving DecidableEq, Repr

/-- The Geometry Solver's failure. -/
inductive SolveError
  | unresolvablePosition
deriving DecidableEq, Repr

/-- Modelled from the spec: monitor selection (§4.1 step 1) — absent or
"primary" selects the primary; otherwise the first monitor with the given
name, falling back to the primary. -/
def selectMonitor (primary : MonitorInfo) (monitors : List MonitorInfo)
    (name : Option String) : MonitorInfo :=
  match name with
  | none => primary
  | some n =>
    if n = "primary" then primary
    else (monitors.find? (fun m => m.name == n)).getD primary

/-- Modelled from the spec: one axis of the Geometry Solver (§4.1 steps 2-3,
horizontal wording; the vertical axis is the same with top/bottom/height).
Exactly one of the six field combinations must be present, otherwise the
axis is insoluble; `lo` alone gives length `monLen − lo`; `hi` alone gives
local origin 0 and length `monLen − hi`; `len` alone centres. -/
def solveAxis (monLen : ℚ) (lo hi len : Option ℚ) : Option (ℚ × ℚ) :=
  match lo, hi, len with
  | some l, some r, none => some (l, monLen - l - r)
  | some l, none, some w => some (l, w)
  | none, some r, some w => some (monLen - r - w, w)
  | some l, none, none => some (l, monLen - l)
  | none, some r, none => some (0, monLen - r)
  | none, none, some w => some ((monLen - w) / 2, w)
  | _, _, _ => none

/-- Modelled from the spec: the Geometry Solver (§4.1; native Rust side, not
under `src/`).  Solve both axes against the selected monitor, clamp the
lengths to `max(1, ·)`, fail with `UnresolvablePosition` when an axis is
insoluble or a solved local origin is negative, and translate by the
monitor's virtual-desktop origin (§4.1 step 4). -/
def solvePosition (primary : MonitorInfo) (monitors : List MonitorInfo)
    (p : WindowPositionDescriptor) :
    Except SolveError (SolvedRect × MonitorInfo) :=
  match solveAxis (selectMonitor primary monitors p.monitor).width
          p.left p.right p.width,
        solveAxis (selectMonitor primary monitors p.monitor).height
          p.top p.bottom p.height with
  | some (xl, w0), some (yl, h0) =>
    if xl < 0 ∨ yl < 0 then .error .unresolvablePosition
    else .ok ({ x := (selectMonitor primary monitors p.monitor).x + xl,
                y := (selectMonitor primary monitors p.monitor).y + yl,
                w := max 1 w0, h := max 1 h0 },
              selectMonitor primary monitors p.monitor)
  | _, _ => .error .unresolvablePosition

/-- A 1440×900 primary monitor at the virtual-desktop origin, used in the
concrete geometry scenarios. -/
def primaryMonitor1440 : MonitorInfo :=
  { name := "primary", width := 1440, height := 900, x := 0, y := 0 }

/-- An over-spanning descriptor: `{left: 2000, width: 100, top: 0,
height: 50}`. -/
def overSpanDescriptor : WindowPositionDescriptor :=
  { monitor := none, top := some 0, bottom := none, left := some 2000,
    right := none, width := some 100, height := some 50 }

/-- The coordinator-bar descriptor of the spec's first end-to-end scenario:
`{top: 9, left: 20, right: 20, height: 60}`. -/
def barDescriptor : WindowPositionDescriptor :=
  { monitor := none, top := some 9, bottom := none, left := some 20,
    right := some 20, width := none, height := some 60 }

/-- C8 (counterexample): the solver can succeed with an origin outside the
chosen monitor's extent.  On a 1440×900 primary at (0,0), the descriptor
`{left: 2000, width: 100, top: 0, height: 50}` solves to the rectangle
(2000, 0, 100, 50) — a success whose origin x = 2000 is not within the
monitor's bounds (0 ≤ x < 1440), refuting "its origin lies within the
chosen monitor's bounds" as stated. -/
theorem solvePosition_origin_outside_monitor :
    solvePosition primaryMonitor1440 [primaryMonitor1440] overSpanDescriptor
      = Except.ok ({ x := 2000, y := 0, w := 100, h := 50 },
                   primaryMonitor1440) ∧
    ¬ ((2000 : ℚ) < primaryMonitor1440.x + primaryMonitor1440.width) := by
  constructor
  · unfold solvePosition
    rw [show solveAxis (selectMonitor primaryMonitor1440 [primaryMonitor1440]
          overSpanDescriptor.monitor).width overSpanDescriptor.left
          overSpanDescriptor.right overSpanDescriptor.width
          = some (2000, 100) from rfl,
        show solveAxis (selectMonitor primaryMonitor1440 [primaryMonitor1440]
          overSpanDescriptor.monitor).height overSpanDescriptor.top
          overSpanDescriptor.bottom overSpanDescriptor.height
          = some (0, 50) from rfl]
    dsimp only
    rw [if_neg (by norm_num)]
    rw [show selectMonitor primaryMonitor1440 [primaryMonitor1440]
          overSpanDescriptor.monitor = primaryMonitor1440 from rfl]
    simp only [primaryMonitor1440]
    norm_num
  · simp only [primaryMonitor1440]
    norm_num

/-- C8 (amended): on every position descriptor and monitor table where the
Geometry Solver succeeds, the rectangle's width and height are strictly
positive (lengths are clamped to `max(1, ·)`) and its origin lies at or
beyond the chosen monitor's top-left origin (the solver does not bound the
origin by the monitor's extent); negative solved local origins yield
`UnresolvablePosition` instead of a rectangle. -/
theorem solvePosition_success_properties
    (primary : MonitorInfo) (monitors : List MonitorInfo)
    (p : WindowPositionDescriptor) :
    (∀ rect mon, solvePosition primary monitors p = .ok (rect, mon) →
      0 < rect.w ∧ 0 < rect.h ∧ mon.x ≤ rect.x ∧ mon.y ≤ rect.y) ∧
    (∀ xl w0 yl h0,
      solveAxis (selectMonitor primary monitors p.monitor).width
          p.left p.right p.width = some (xl, w0) →
      solveAxis (selectMonitor primary monitors p.monitor).height
          p.top p.bottom p.height = some (yl, h0) →
      (xl < 0 ∨ yl < 0) →
      solvePosition primary monitors p
        = .error .unresolvablePosition) := by
  constructor
  · intro rect mon h
    unfold solvePosition at h
    rcases hx : solveAxis (selectMonitor primary monitors p.monitor).width
        p.left p.right p.width with _ | ⟨xl, w0⟩
    · rw [hx] at h
      cases h
    · rcases hy : solveAxis (selectMonitor primary monitors p.monitor).height
          p.top p.bottom p.height with _ | ⟨yl, h0⟩
      · rw [hx, hy] at h
        cases h
      · rw [hx, hy] at h
        dsimp only at h
        by_cases hneg : xl < 0 ∨ yl < 0
        · rw [if_pos hneg] at h
          cases h
        · rw [if_neg hneg] at h
          push_neg at hneg
          injection h with h1
          injection h1 with hrect hmon
          subst hrect
          subst hmon
          refine ⟨lt_of_lt_of_le zero_lt_one (le_max_left 1 w0),
            lt_of_lt_of_le zero_lt_one (le_max_left 1 h0), ?_, ?_⟩
          · exact le_add_of_nonneg_right hneg.1
          · exact le_add_of_nonneg_right hneg.2
  · intro xl w0 yl h0 hx hy hneg
    unfold solvePosition
    rw [hx, hy]
    dsimp only
    rw [if_pos hneg]

/-- Witness for C8 (amended): the coordinator-bar scenario — descriptor
`{top: 9, left: 20, right: 20, height: 60}` on a 1440×900 primary at (0,0)
— succeeds with the rectangle (20, 9, 1400, 60), whose sides are positive
and whose origin is at or beyond the monitor origin. -/
theorem solvePosition_success_properties_witness :
    0 < (1400 : ℚ) ∧ 0 < (60 : ℚ) ∧
      primaryMonitor1440.x ≤ (20 : ℚ) ∧ primaryMonitor1440.y ≤ (9 : ℚ) := by
  have hsolve : solvePosition primaryMonitor1440 [primaryMonitor1440]
      barDescriptor
      = Except.ok ({ x := 20, y := 9, w := 1400, h := 60 },
                   primaryMonitor1440) := by
    unfold solvePosition
    rw [show solveAxis (selectMonitor primaryMonitor1440 [primaryMonitor1440]
          barDescriptor.monitor).width barDescriptor.left
          barDescriptor.right barDescriptor.width
          = some (20, primaryMonitor1440.width - 20 - 20) from rfl,
        show solveAxis (selectMonitor primaryMonitor1440 [primaryMonitor1440]
          barDescriptor.monitor).height barDescriptor.top
          barDescriptor.bottom barDescriptor.height
          = some (9, 60) from rfl]
    dsimp only
    rw [if_neg (by norm_num)]
    rw [show selectMonitor primaryMonitor1440 [primaryMonitor1440]
          barDescriptor.monitor = primaryMonitor1440 from rfl]
    simp only [primaryMonitor1440]
    norm_num
  exact (solvePosition_success_properties primaryMonitor1440
      [primaryMonitor1440] barDescriptor).1
    { x := 20, y := 9, w := 1400, h := 60 } primaryMonitor1440 hsolve

end Fluopanel
